import Mathlib

/-!
# Verification of the sutr_backend catalog service

A shallow embedding of the catalog-and-ordering backend (models/model.js,
routes/routes.js, routes/auth.js, middleware/auth.js, middleware/upload.js)
together with proofs and refutations of the specification's claims.

JavaScript numbers that can be `NaN` are modelled as `Option Int` /
`Option ℚ` (with `none` standing for `NaN`); JavaScript truthiness of a
numeric value is `≠ 0`; thrown exceptions are modelled with `Except`.
-/

namespace Sutr

/-! ## Pricing virtuals (models/model.js, dressSchema virtuals)

`price.original` and `price.discounted` are JS numbers; `discounted` may be
absent.  The virtuals read:

  discountPercentage: if (this.price.discounted && this.price.original > 0)
    return Math.round(((original - discounted) / original) * 100); return 0;
  effectivePrice: return this.price.discounted || this.price.original;

`x && …` and `x || y` use JS truthiness: a number is falsy exactly when it
is `0` (or `NaN`, which cannot arise from validated non-negative input).
`Math.round` is round-half-up, which is Mathlib's `round` on `ℚ`.  -/

structure Price where
  original : ℚ
  discounted : Option ℚ
deriving DecidableEq, Repr

/-- JS truthiness of an optional numeric field: present and nonzero. -/
def numTruthy : Option ℚ → Bool
  | none => false
  | some x => x ≠ 0

/-- The `discountPercentage` virtual of dressSchema (model.js lines 236-243). -/
def discountPercentage (p : Price) : ℤ :=
  if numTruthy p.discounted ∧ p.original > 0 then
    round ((p.original - p.discounted.getD 0) / p.original * 100)
  else 0

/-- The `effectivePrice` virtual of dressSchema (model.js lines 246-248):
`this.price.discounted || this.price.original`. -/
def effectivePrice (p : Price) : ℚ :=
  if numTruthy p.discounted then p.discounted.getD 0 else p.original

/-! ## Slug derivation (models/model.js, categorySchema pre-save hook)

  this.slug = this.name
    .toLowerCase()
    .replace([^a-zA-Z0-9] globally, '-')
    .replace(runs of hyphens, '-')
    .replace(^- or -$ globally, '');

`toLowerCase` is modelled on its ASCII case mapping (the only part that can
produce characters surviving the `[^a-zA-Z0-9]` replacement); runs of
hyphens are collapsed, then the single possible leading and trailing hyphen
are removed (the edge regex removes one match at each end). -/

/-- ASCII case lowering of one character, as JS `toLowerCase` acts on
`A`–`Z` (code points 65–90 map to 97–122). -/
def jsToLower (c : Char) : Char :=
  if 65 ≤ c.toNat ∧ c.toNat ≤ 90 then Char.ofNat (c.toNat + 32) else c

/-- The regex character class `[a-zA-Z0-9]`. -/
def isAsciiAlnum (c : Char) : Bool :=
  (97 ≤ c.toNat && c.toNat ≤ 122) || (65 ≤ c.toNat && c.toNat ≤ 90) ||
    (48 ≤ c.toNat && c.toNat ≤ 57)

/-- the non-alphanumeric replacement acting on one character. -/
def hyphenate (c : Char) : Char := if isAsciiAlnum c then c else '-'

/-- The hyphen-run replacement: collapse every run of hyphens to a single one. -/
def collapseHyphens : List Char → List Char
  | [] => []
  | [c] => [c]
  | a :: b :: rest =>
    if a = '-' ∧ b = '-' then collapseHyphens (b :: rest)
    else a :: collapseHyphens (b :: rest)

/-- The `^-` alternative of the edge-hyphen replacement: drop one leading hyphen. -/
def stripLeadHyphen : List Char → List Char
  | [] => []
  | c :: rest => if c = '-' then rest else c :: rest

/-- The `-$` alternative of the edge-hyphen replacement: drop one trailing hyphen. -/
def stripTrailHyphen : List Char → List Char
  | [] => []
  | [c] => if c = '-' then [] else [c]
  | c :: d :: rest => c :: stripTrailHyphen (d :: rest)

/-- the edge-hyphen replacement: both ends at once. -/
def stripEdgeHyphens (l : List Char) : List Char :=
  stripTrailHyphen (stripLeadHyphen l)

/-- The slug pipeline of the categorySchema pre-save hook, on character
lists. -/
def slugChars (s : List Char) : List Char :=
  stripEdgeHyphens (collapseHyphens ((s.map jsToLower).map hyphenate))

/-- The slug derived from a category name (model.js lines 50-59). -/
def slugify (name : String) : String := ⟨slugChars name.data⟩

/-- A character allowed in a slug: lowercase ASCII letter, digit, or the
hyphen (code point 45). -/
def isSlugChar (c : Char) : Bool :=
  (97 ≤ c.toNat && c.toNat ≤ 122) || (48 ≤ c.toNat && c.toNat ≤ 57) ||
    c.toNat = 45

/-- No two adjacent hyphens (hyphens are "single"). -/
def noDoubleHyphen : List Char → Bool
  | [] => true
  | [_] => true
  | a :: b :: rest => !(a = '-' && b = '-') && noDoubleHyphen (b :: rest)

/-- A category document; `slug` is recomputed by the pre-save hook whenever
`name` was modified. -/
structure Category where
  id : String
  name : String
  slug : String
  isActive : Bool
  sortOrder : Int
  imagePublicId : String
deriving DecidableEq, Repr

/-- The categorySchema pre-save hook: recompute `slug` from `name` exactly
when the name was modified. -/
def categoryPreSave (c : Category) (nameModified : Bool) : Category :=
  if nameModified then { c with slug := slugify c.name } else c

/-! ## Access guard (middleware/auth.js) -/

/-- The identity that `protect` attaches to a request: `{ id, role }`. -/
structure ReqUser where
  id : String
  role : String
deriving DecidableEq, Repr

/-- Outcome of a request-level guard. -/
inductive GateResult
  | granted
  | forbidden403 (message : String)
deriving DecidableEq, Repr

/-- middleware/auth.js `adminOnly` (lines 41-46):
`if (req.user && req.user.role === 'admin') next(); else 403`.
The `req.user.role` access is guarded by the `req.user &&` truthiness
check, so the middleware is a total function of the optional user: an
absent user falls straight to the 403 branch. -/
def adminOnly (user : Option ReqUser) : GateResult :=
  match user with
  | some u =>
    if u.role = "admin" then .granted
    else .forbidden403 "Access denied: admin only"
  | none => .forbidden403 "Access denied: admin only"

/-! ## Credential service (routes/auth.js) -/

/-- A stored identity record (models/userModel.js is not in scope; the
fields used by the login route are those it reads). -/
structure UserRec where
  id : String
  username : String
  email : String
  passwordHash : String
  role : String
deriving DecidableEq, Repr

/-- An error response body: HTTP status plus the `{success, message}`
envelope. -/
structure ErrorBody where
  status : Nat
  success : Bool
  message : String
deriving DecidableEq, Repr

/-- Outcome of POST /api/auth/login. -/
inductive LoginResult
  | failure (body : ErrorBody)
  | issued (tokenUserId : String) (tokenRole : String)
deriving DecidableEq, Repr

/-- routes/auth.js POST /login (lines 62-121).  `checkPw` is the black-box
password-hash comparison (`user.matchPassword`); JS falsiness of the
request fields is emptiness. -/
def login (db : List UserRec) (checkPw : String → String → Bool)
    (email password : String) : LoginResult :=
  if email = "" ∨ password = "" then
    .failure ⟨400, false, "Please provide email and password"⟩
  else
    match db.find? (fun u => u.email == email) with
    | none => .failure ⟨401, false, "Invalid credentials"⟩
    | some u =>
      if checkPw password u.passwordHash then .issued u.id u.role
      else .failure ⟨401, false, "Invalid credentials"⟩

/-! ## Catalog records (models/model.js dressSchema) -/

/-- One entry of the `images` array: `{ url, public_id, alt }`. -/
structure DressImage where
  url : String
  public_id : String
  alt : String
deriving DecidableEq, Repr

/-- A dress document, restricted to the fields the verified routes read. -/
structure DressDoc where
  id : String
  name : String
  description : String
  material : String
  tags : List String
  images : List DressImage
  isActive : Bool
  views : Nat
deriving DecidableEq, Repr

/-! ## GET /dress/:id (routes/routes.js lines 379-404) -/

/-- Outcome of the single-dress fetch. -/
inductive GetDressResult
  | ok (data : DressDoc)
  | notFound404
  | error500 (message : String)
deriving DecidableEq, Repr

/-- routes.js GET /dress/:id: `findOne({_id: id, isActive: true})`, 404 if
absent, then `await Dress.findByIdAndUpdate(id, {$inc: {views: 1}})`
*inside the try block and before the response is sent*.  `incFails` models
a store failure of that update; it is caught by the surrounding catch and
becomes a 500.  On success the response carries the document as fetched
(pre-increment) and the store holds the incremented count. -/
def getDressById (db : List DressDoc) (id : String) (incFails : Bool) :
    GetDressResult × List DressDoc :=
  match db.find? (fun d => d.id == id && d.isActive) with
  | none => (.notFound404, db)
  | some d =>
    if incFails then (.error500 "Error fetching dress", db)
    else (.ok d,
      db.map (fun e => if e.id == id then { e with views := e.views + 1 } else e))

/-! ## PUT /dress/:id image removal/append (routes/routes.js lines 559-583) -/

/-- Outcome of the dress update route, restricted to its image handling. -/
inductive UpdateDressResult
  | saved200 (images : List DressImage)
  | notFound404
  | badRequest400 (message : String)
  | error500 (message : String)
deriving DecidableEq, Repr

/-- The image set after the route's two mutation steps: filter out the
requested `public_id`s (only when a removal was requested), then append
the new images (only when any were supplied). -/
def resultingImages (images : List DressImage)
    (removeImages : List String) (newImages : List DressImage) :
    List DressImage :=
  let afterRemove :=
    if removeImages.length > 0 then
      images.filter (fun img => !removeImages.contains img.public_id)
    else images
  if newImages.length > 0 then afterRemove ++ newImages else afterRemove

/-- routes.js PUT /dress/:id, image portion: find the dress (404 if
absent); if `removeImages` is non-empty, delete those assets remotely
(`cloudDelete` is that call's outcome — a rejection is caught and mapped
to 500 by the route's catch) and filter them out of `images`; append
`newImages` if non-empty; reject with 400 *before any save* if the
resulting image set is empty; otherwise save.  Field updates other than
images are independent of this claim and omitted. -/
def updateDressImagesRoute (db : List DressDoc) (id : String)
    (removeImages : List String) (newImages : List DressImage)
    (cloudDelete : Except String Unit) : UpdateDressResult × List DressDoc :=
  match db.find? (fun d => d.id == id) with
  | none => (.notFound404, db)
  | some d =>
    match (if removeImages.length > 0 then cloudDelete else .ok ()) with
    | .error _ => (.error500 "Error updating dress", db)
    | .ok _ =>
      let afterAdd := resultingImages d.images removeImages newImages
      if afterAdd.length = 0 then
        (.badRequest400 "Dress must have at least one image", db)
      else
        (.saved200 afterAdd,
          db.map (fun e => if e.id == id then { e with images := afterAdd } else e))

/-! ## Pagination (routes/routes.js GET /dresses, lines 247-278)

JS `parseInt` on a non-numeric string yields `NaN`, and `Math.max(1, NaN)`
and `Math.min(50, NaN)` are `NaN`; `NaN` is modelled as `none`. -/

/-- Base-10 value of a digit string. -/
def digitsVal (l : List Char) : Nat :=
  l.foldl (fun acc c => acc * 10 + (c.toNat - 48)) 0

/-- JS `parseInt(s)` in base 10: skip leading whitespace, read an optional
sign, then the longest digit prefix; `NaN` (`none`) when no digits follow.
(The hexadecimal auto-detection of `parseInt` is not modelled; no claim
involves a `0x` prefix.) -/
def jsParseInt (s : String) : Option Int :=
  let t := s.data.dropWhile (fun c => c.isWhitespace)
  let signed : Int × List Char :=
    match t with
    | '-' :: r => (-1, r)
    | '+' :: r => (1, r)
    | r => (1, r)
  let digits := signed.2.takeWhile (fun c => c.isDigit)
  if digits.isEmpty then none
  else some (signed.1 * digitsVal digits)

/-- `Math.max(1, parseInt(page))` with default `page = 1`:
the effective page number, `none` for `NaN`. -/
def effectivePage (pageRaw : Option String) : Option Int :=
  (match pageRaw with
    | none => some 1
    | some s => jsParseInt s).map (fun n => max 1 n)

/-- `Math.max(1, Math.min(50, parseInt(limit)))` with default `limit = 12`:
the effective page size, `none` for `NaN`. -/
def effectiveLimit (limitRaw : Option String) : Option Int :=
  (match limitRaw with
    | none => some 12
    | some s => jsParseInt s).map (fun n => max 1 (min 50 n))

/-- routes.js GET /dresses, pagination over the already-filtered matching
items: skip `(page-1)·limit`, take `limit`, and report
`(data, total, page, pages)` with `pages = Math.ceil(total / limitNum)`.
When page or limit is `NaN` the route still issues the store query with
`NaN` skip/limit, whose result this model leaves undefined (`none`). -/
def listDressesPage (matching : List DressDoc)
    (pageRaw limitRaw : Option String) :
    Option (List DressDoc × Nat × Int × Int) :=
  match effectivePage pageRaw, effectiveLimit limitRaw with
  | some p, some l =>
    let skip := ((p - 1) * l).toNat
    some ((matching.drop skip).take l.toNat, matching.length, p,
      ⌈(matching.length : ℚ) / (l : ℚ)⌉)
  | _, _ => none

/-! ## Category resolution (routes/routes.js lines 35-47 and 316-331) -/

/-- The regex of routes.js line 38: 24 hex characters. -/
def isHexDigitChar (c : Char) : Bool :=
  (48 ≤ c.toNat && c.toNat ≤ 57) || (97 ≤ c.toNat && c.toNat ≤ 102) ||
    (65 ≤ c.toNat && c.toNat ≤ 70)

/-- Matches the ObjectId literal format `[0-9a-fA-F]` repeated 24 times. -/
def isHex24 (s : String) : Bool :=
  s.length = 24 && s.data.all isHexDigitChar

/-- A string mongoose can cast to an ObjectId: a 24-hex-char string or any
12-byte string. -/
def isCastableObjectId (s : String) : Bool :=
  isHex24 s || s.utf8ByteSize = 12

/-- Outcome of resolving a category identifier. -/
inductive CategoryLookupResult
  | ok (c : Category)
  | notFound404
  | castError500 (message : String)
deriving DecidableEq, Repr

/-- routes.js GET /category/:identifier (lines 35-47): test the 24-hex
format first and query `_id` *or* `slug` accordingly (never both), so no
cast error can occur; 404 when no active match. -/
def getCategoryByIdentifier (db : List Category) (identifier : String) :
    CategoryLookupResult :=
  match db.find? (fun c =>
      (if isHex24 identifier then c.id == identifier
       else c.slug == identifier) && c.isActive) with
  | some c => .ok c
  | none => .notFound404

/-- routes.js GET /dresses/category/:categoryId (lines 316-331): a single
`findOne({$or: [{_id: categoryId}, {slug: categoryId}], isActive: true})`.
Mongoose casts the `_id` clause before running the query, so any
`categoryId` that is not castable to an ObjectId raises a CastError, which
the route's catch maps to a 500 ("Error fetching dresses by category")
instead of resolving the identifier as a slug. -/
def resolveCategoryForListing (db : List Category) (identifier : String) :
    CategoryLookupResult :=
  if !isCastableObjectId identifier then
    .castError500 "Error fetching dresses by category"
  else
    match db.find? (fun c =>
        (c.id == identifier || c.slug == identifier) && c.isActive) with
    | some c => .ok c
    | none => .notFound404

/-! ## Compensating asset cleanup (middleware/upload.js lines 99-122,
routes/routes.js catch blocks of POST /category and POST /dress) -/

/-- middleware/upload.js `deleteFromCloudinary`: logs the failure and
*rethrows* it — the returned promise still rejects with the same error. -/
def deleteFromCloudinary (outcome : Except String Unit) : Except String Unit :=
  outcome

/-- middleware/upload.js `deleteMultipleFromCloudinary`: `null` (ok) on an
empty list, otherwise `Promise.all` of the per-asset deletions, which
rejects with the first failure; that rejection is logged and rethrown. -/
def deleteMultipleFromCloudinary (outcomes : List (Except String Unit)) :
    Except String Unit :=
  if outcomes.isEmpty then .ok ()
  else
    match outcomes.find? (fun r => match r with | .error _ => true | .ok _ => false) with
    | some (.error m) => .error m
    | _ => .ok ()

/-- Outcome of the DB save inside POST /category. -/
inductive SaveOutcome
  | saved
  | dupKey
  | failed (message : String)
deriving DecidableEq, Repr

/-- Outcome of a create handler, as observed by the HTTP caller.
`noResponse` is a promise rejection that escaped the handler (Express 4
async handlers do not forward it): no response reaches the caller. -/
inductive HandlerOutcome
  | created201
  | badRequest400 (message : String)
  | error500 (message : String)
  | noResponse (message : String)
deriving DecidableEq, Repr

/-- routes.js POST /category (lines 61-109), error path: on a failed save,
when a `public_id` accompanied the request the catch block *awaits*
`deleteFromCloudinary` unguarded, so a rejected deletion escapes the catch
and no response is sent; only when the deletion resolves does the handler
map the original error (11000 → 400 duplicate, else 500). -/
def createCategoryOutcome (hasPublicId : Bool) (save : SaveOutcome)
    (cloudDelete : Except String Unit) : HandlerOutcome :=
  match save with
  | .saved => .created201
  | e =>
    match (if hasPublicId then deleteFromCloudinary cloudDelete else .ok ()) with
    | .error m => .noResponse m
    | .ok _ =>
      match e with
      | .dupKey => .badRequest400 "Category name already exists"
      | .failed msg => .error500 msg
      | .saved => .created201

/-- routes.js POST /dress (lines 408-489): 400 when `images` is missing or
empty; otherwise on a failed save the catch block awaits
`deleteMultipleFromCloudinary` of the request's image ids unguarded — a
rejected deletion escapes and no response is sent; when it resolves, the
original failure surfaces as a 500 with its message. -/
def createDressOutcome (images : List DressImage)
    (save : Except String Unit)
    (cloudDeletes : List (Except String Unit)) : HandlerOutcome :=
  if images.length = 0 then
    .badRequest400 "At least one dress image is required in images array"
  else
    match save with
    | .ok _ => .created201
    | .error msg =>
      match deleteMultipleFromCloudinary cloudDeletes with
      | .error m => .noResponse m
      | .ok _ => .error500 msg

/-! ## Free-text search (routes/routes.js GET /dresses/search, lines 649-725)

The filter builds `new RegExp(q, 'i')` against name, description,
material and tags.  The regex model below covers patterns made of literal
characters and the `.` metacharacter (one token per character,
case-insensitive, unanchored) — exactly the JS semantics on every pattern
free of the other metacharacters, and enough to exhibit how `.` departs
from substring matching. -/

/-- One case-insensitive regex token against one character: `.` matches
anything, a literal matches up to ASCII case. -/
def charMatchI (p c : Char) : Bool :=
  p = '.' || jsToLower p == jsToLower c

/-- Match the whole pattern starting at the head of `s`. -/
def matchAt : List Char → List Char → Bool
  | [], _ => true
  | _ :: _, [] => false
  | p :: ps, c :: cs => charMatchI p c && matchAt ps cs

/-- Unanchored case-insensitive test, as `RegExp(q, 'i').test(s)`. -/
def regexTestI (pat : List Char) : List Char → Bool
  | [] => pat.isEmpty
  | c :: cs => matchAt pat (c :: cs) || regexTestI pat cs

/-- Case-insensitive literal prefix match (the substring notion used by
the specification). -/
def substrAtI : List Char → List Char → Bool
  | [], _ => true
  | _ :: _, [] => false
  | p :: ps, c :: cs => (jsToLower p == jsToLower c) && substrAtI ps cs

/-- Case-insensitive substring test. -/
def isSubstrI (q : List Char) : List Char → Bool
  | [] => q.isEmpty
  | c :: cs => substrAtI q (c :: cs) || isSubstrI q cs

/-- A JS regular-expression metacharacter. -/
def isRegexMeta (c : Char) : Bool :=
  c = '\\' || c = '^' || c = '$' || c = '.' || c = '|' || c = '?' ||
    c = '*' || c = '+' || c = '(' || c = ')' || c = '[' || c = ']' ||
    c = '\x7b' || c = '\x7d'

/-- The `$or` clause of the search filter applied to one document:
`RegExp(q,'i')` against name, description, material, or any tag. -/
def searchMatches (q : String) (d : DressDoc) : Bool :=
  regexTestI q.data d.name.data || regexTestI q.data d.description.data ||
    regexTestI q.data d.material.data ||
    d.tags.any (fun t => regexTestI q.data t.data)

/-- routes.js GET /dresses/search: 400 when `q` is absent or empty
(falsy), else the active documents matching the filter. -/
def searchRoute (db : List DressDoc) (q : Option String) :
    Except String (List DressDoc) :=
  if q.getD "" = "" then .error "Search query (q) is required"
  else .ok (db.filter (fun d => d.isActive && searchMatches (q.getD "") d))

/-- A minimal concrete dress document, for witnesses. -/
def demoDress (i : Nat) : DressDoc :=
  { id := toString i, name := "Dress", description := "d", material := "m",
    tags := [], images := [{ url := "u", public_id := "p", alt := "" }],
    isActive := true, views := 0 }

/-- Thirty matching documents, the instance named by the pagination claim. -/
def demoCatalog : List DressDoc := (List.range 30).map demoDress

theorem toNat_ofNat_of_valid {n : Nat} (h : n.isValidChar) :
    (Char.ofNat n).toNat = n := by
  rw [Char.ofNat, dif_pos h]
  rfl

theorem jsToLower_toNat (c : Char) :
    (jsToLower c).toNat =
      if 65 ≤ c.toNat ∧ c.toNat ≤ 90 then c.toNat + 32 else c.toNat := by
  unfold jsToLower
  split
  · next h => exact toNat_ofNat_of_valid (Or.inl (by omega))
  · rfl

theorem isSlugChar_hyphenate (c : Char) :
    isSlugChar (hyphenate (jsToLower c)) = true := by
  by_cases h : isAsciiAlnum (jsToLower c)
  · rw [hyphenate, if_pos h]
    have ht := jsToLower_toNat c
    simp only [isAsciiAlnum, Bool.or_eq_true, Bool.and_eq_true,
      decide_eq_true_eq] at h
    simp only [isSlugChar, Bool.or_eq_true, Bool.and_eq_true,
      decide_eq_true_eq]
    by_cases hc : 65 ≤ c.toNat ∧ c.toNat ≤ 90
    · rw [if_pos hc] at ht
      omega
    · rw [if_neg hc] at ht
      omega
  · rw [hyphenate, if_neg h]
    decide

theorem mem_collapseHyphens {c : Char} :
    ∀ {l : List Char}, c ∈ collapseHyphens l → c ∈ l := by
  intro l
  induction l using collapseHyphens.induct with
  | case1 => simp [collapseHyphens]
  | case2 d => simp [collapseHyphens]
  | case3 a b rest h ih =>
    rw [collapseHyphens, if_pos h]
    intro hm
    exact List.mem_cons_of_mem a (ih hm)
  | case4 a b rest h ih =>
    rw [collapseHyphens, if_neg h]
    intro hm
    rcases List.mem_cons.mp hm with h1 | h2
    · exact h1 ▸ List.mem_cons_self a _
    · exact List.mem_cons_of_mem a (ih h2)

theorem head?_collapseHyphens :
    ∀ l : List Char, (collapseHyphens l).head? = l.head? := by
  intro l
  induction l using collapseHyphens.induct with
  | case1 => rfl
  | case2 d => rfl
  | case3 a b rest h ih =>
    rw [collapseHyphens, if_pos h, ih]
    simp [h.1, h.2]
  | case4 a b rest h ih =>
    rw [collapseHyphens, if_neg h]
    rfl

theorem noDoubleHyphen_collapseHyphens :
    ∀ l : List Char, noDoubleHyphen (collapseHyphens l) = true := by
  intro l
  induction l using collapseHyphens.induct with
  | case1 => rfl
  | case2 d => rfl
  | case3 a b rest h ih =>
    rw [collapseHyphens, if_pos h]
    exact ih
  | case4 a b rest h ih =>
    rw [collapseHyphens, if_neg h]
    have hh := head?_collapseHyphens (b :: rest)
    rcases hc : collapseHyphens (b :: rest) with _ | ⟨y, t⟩
    · rfl
    · rw [hc] at hh ih
      simp only [List.head?_cons] at hh
      have hyb : y = b := by injection hh
      subst hyb
      rw [noDoubleHyphen, ih, Bool.and_true]
      simp only [Bool.not_eq_true', Bool.and_eq_false_iff,
        decide_eq_false_iff_not]
      by_cases ha : a = '-'
      · right
        intro hb
        exact h ⟨ha, hb⟩
      · left
        exact ha

theorem mem_stripLeadHyphen {c : Char} {l : List Char}
    (h : c ∈ stripLeadHyphen l) : c ∈ l := by
  cases l with
  | nil => exact h
  | cons d rest =>
    rw [stripLeadHyphen] at h
    split at h
    · exact List.mem_cons_of_mem d h
    · exact h

theorem mem_stripTrailHyphen {c : Char} :
    ∀ {l : List Char}, c ∈ stripTrailHyphen l → c ∈ l := by
  intro l
  induction l using stripTrailHyphen.induct with
  | case1 => exact fun h => h
  | case2 =>
    intro h
    rw [stripTrailHyphen, if_pos rfl] at h
    exact absurd h (List.not_mem_nil c)
  | case3 a ha =>
    rw [stripTrailHyphen, if_neg ha]
    exact fun h => h
  | case4 a d rest ih =>
    rw [stripTrailHyphen]
    intro hm
    rcases List.mem_cons.mp hm with h1 | h2
    · exact h1 ▸ List.mem_cons_self a _
    · exact List.mem_cons_of_mem a (ih h2)

theorem noDoubleHyphen_tail {c : Char} {l : List Char}
    (h : noDoubleHyphen (c :: l) = true) : noDoubleHyphen l = true := by
  cases l with
  | nil => rfl
  | cons d rest =>
    rw [noDoubleHyphen, Bool.and_eq_true] at h
    exact h.2

theorem noDoubleHyphen_stripLeadHyphen {l : List Char}
    (h : noDoubleHyphen l = true) :
    noDoubleHyphen (stripLeadHyphen l) = true := by
  cases l with
  | nil => rfl
  | cons d rest =>
    rw [stripLeadHyphen]
    split
    · exact noDoubleHyphen_tail h
    · exact h

theorem head?_stripLeadHyphen_ne {l : List Char}
    (h : noDoubleHyphen l = true) :
    (stripLeadHyphen l).head? ≠ some '-' := by
  cases l with
  | nil => simp [stripLeadHyphen]
  | cons d rest =>
    rw [stripLeadHyphen]
    split
    · next hd =>
      subst hd
      cases rest with
      | nil => simp
      | cons e r =>
        rw [noDoubleHyphen, Bool.and_eq_true, Bool.not_eq_true',
          Bool.and_eq_false_iff] at h
        simp only [List.head?_cons, ne_eq, Option.some.injEq]
        rcases h.1 with h1 | h2
        · exact absurd rfl (of_decide_eq_false h1)
        · exact fun he => of_decide_eq_false h2 he
    · next hd =>
      simp only [List.head?_cons, ne_eq, Option.some.injEq]
      exact hd

theorem stripTrailHyphen_eq_nil {d : Char} {r : List Char}
    (h : stripTrailHyphen (d :: r) = []) : d = '-' ∧ r = [] := by
  cases r with
  | nil =>
    rw [stripTrailHyphen] at h
    split at h
    · next hd => exact ⟨hd, rfl⟩
    · exact absurd h (by simp)
  | cons e r2 =>
    rw [stripTrailHyphen] at h
    exact absurd h (by simp)

theorem head?_stripTrailHyphen {l : List Char} :
    (stripTrailHyphen l).head? = l.head? ∨ stripTrailHyphen l = [] := by
  cases l with
  | nil => right; rfl
  | cons d rest =>
    cases rest with
    | nil =>
      rw [stripTrailHyphen]
      split
      · right; rfl
      · left; rfl
    | cons e r => left; rfl

theorem noDoubleHyphen_stripTrailHyphen :
    ∀ {l : List Char}, noDoubleHyphen l = true →
      noDoubleHyphen (stripTrailHyphen l) = true := by
  intro l
  induction l using stripTrailHyphen.induct with
  | case1 => exact fun _ => rfl
  | case2 =>
    intro _
    rw [stripTrailHyphen, if_pos rfl]
    rfl
  | case3 a ha =>
    intro _
    rw [stripTrailHyphen, if_neg ha]
    rfl
  | case4 a d rest ih =>
    intro h
    rw [stripTrailHyphen]
    have htail := noDoubleHyphen_tail h
    have ht := ih htail
    rcases hc : stripTrailHyphen (d :: rest) with _ | ⟨y, t⟩
    · rfl
    · rcases head?_stripTrailHyphen (l := d :: rest) with hh | hh
      · rw [hc] at hh
        simp only [List.head?_cons] at hh
        have hyd : y = d := by injection hh
        subst hyd
        rw [hc] at ht
        rw [noDoubleHyphen, ht, Bool.and_true]
        rw [noDoubleHyphen, Bool.and_eq_true] at h
        exact h.1
      · rw [hc] at hh
        exact absurd hh (by simp)

theorem getLast?_stripTrailHyphen_ne :
    ∀ {l : List Char}, noDoubleHyphen l = true →
      (stripTrailHyphen l).getLast? ≠ some '-' := by
  intro l
  induction l using stripTrailHyphen.induct with
  | case1 => simp [stripTrailHyphen]
  | case2 =>
    intro _
    rw [stripTrailHyphen, if_pos rfl]
    simp
  | case3 a ha =>
    intro _
    rw [stripTrailHyphen, if_neg ha]
    simp only [List.getLast?_singleton, ne_eq, Option.some.injEq]
    exact ha
  | case4 a d rest ih =>
    intro h
    rw [stripTrailHyphen]
    have htail := noDoubleHyphen_tail h
    rcases hc : stripTrailHyphen (d :: rest) with _ | ⟨y, t⟩
    · obtain ⟨hd, hr⟩ := stripTrailHyphen_eq_nil hc
      subst hd hr
      rw [noDoubleHyphen, Bool.and_eq_true, Bool.not_eq_true',
        Bool.and_eq_false_iff] at h
      simp only [List.getLast?_singleton, ne_eq, Option.some.injEq]
      rcases h.1 with h1 | h2
      · exact fun he => of_decide_eq_false h1 he
      · exact absurd rfl (of_decide_eq_false h2)
    · have := ih htail
      rw [hc] at this
      rw [List.getLast?_cons_cons]
      exact this

theorem isSlugChar_of_mem_slugChars {c : Char} {s : List Char}
    (h : c ∈ slugChars s) : isSlugChar c = true := by
  have h1 : c ∈ collapseHyphens ((s.map jsToLower).map hyphenate) :=
    mem_stripLeadHyphen (mem_stripTrailHyphen h)
  have h2 : c ∈ (s.map jsToLower).map hyphenate := mem_collapseHyphens h1
  rw [List.map_map, List.mem_map] at h2
  obtain ⟨x, _, hx⟩ := h2
  rw [← hx]
  exact isSlugChar_hyphenate x

theorem noDoubleHyphen_slugChars (s : List Char) :
    noDoubleHyphen (slugChars s) = true :=
  noDoubleHyphen_stripTrailHyphen
    (noDoubleHyphen_stripLeadHyphen (noDoubleHyphen_collapseHyphens _))

theorem head?_slugChars_ne (s : List Char) :
    (slugChars s).head? ≠ some '-' := by
  have hlead := head?_stripLeadHyphen_ne
    (noDoubleHyphen_collapseHyphens ((s.map jsToLower).map hyphenate))
  rcases head?_stripTrailHyphen
      (l := stripLeadHyphen (collapseHyphens ((s.map jsToLower).map hyphenate)))
    with hh | hh
  · rw [slugChars, stripEdgeHyphens, hh]
    exact hlead
  · rw [slugChars, stripEdgeHyphens, hh]
    simp

theorem getLast?_slugChars_ne (s : List Char) :
    (slugChars s).getLast? ≠ some '-' :=
  getLast?_stripTrailHyphen_ne
    (noDoubleHyphen_stripLeadHyphen (noDoubleHyphen_collapseHyphens _))

theorem matchAt_eq_substrAtI :
    ∀ (pat : List Char), (∀ c ∈ pat, c ≠ '.') →
      ∀ s : List Char, matchAt pat s = substrAtI pat s := by
  intro pat
  induction pat with
  | nil =>
    intro _ s
    cases s <;> rfl
  | cons p ps ih =>
    intro h s
    cases s with
    | nil => rfl
    | cons c cs =>
      have hp : p ≠ '.' := h p (List.mem_cons_self p ps)
      rw [matchAt, substrAtI, charMatchI,
        ih (fun x hx => h x (List.mem_cons_of_mem p hx)) cs]
      simp [hp]

theorem regexTestI_eq_isSubstrI (pat : List Char)
    (h : ∀ c ∈ pat, c ≠ '.') :
    ∀ s : List Char, regexTestI pat s = isSubstrI pat s := by
  intro s
  induction s with
  | nil => rfl
  | cons c cs ih =>
    rw [regexTestI, isSubstrI, matchAt_eq_substrAtI pat h, ih]

theorem no_dot_of_no_meta {q : List Char}
    (h : q.all (fun c => !isRegexMeta c) = true) : ∀ c ∈ q, c ≠ '.' := by
  intro c hc
  have := (List.all_eq_true.mp h) c hc
  simp only [Bool.not_eq_true', isRegexMeta, Bool.or_eq_false_iff,
    decide_eq_false_iff_not] at this
  exact this.1.1.1.1.1.1.1.1.1.1.2

theorem effectivePage_ge_one {pr : Option String} {p : Int}
    (h : effectivePage pr = some p) : 1 ≤ p := by
  obtain ⟨n, -, hn⟩ := Option.map_eq_some'.mp h
  rw [← hn]
  exact le_max_left 1 n

theorem effectiveLimit_bounds {lr : Option String} {l : Int}
    (h : effectiveLimit lr = some l) : 1 ≤ l ∧ l ≤ 50 := by
  obtain ⟨n, -, hn⟩ := Option.map_eq_some'.mp h
  rw [← hn]
  exact ⟨le_max_left 1 _, max_le (by norm_num) (min_le_left 50 n)⟩

end Sutr

/-- **C8 (confirmed).**  For every category name, the derived slug contains
only lowercase ASCII alphanumerics and hyphens, never two adjacent hyphens,
and no leading or trailing hyphen; the slug is a pure function of the name
(equal names give equal slugs), and the pre-save hook recomputes it from
the name exactly when the name was modified. -/
theorem C8_slug_wellformed (name : String) :
    (∀ c ∈ (Sutr.slugify name).data, Sutr.isSlugChar c = true) ∧
    Sutr.noDoubleHyphen (Sutr.slugify name).data = true ∧
    (Sutr.slugify name).data.head? ≠ some '-' ∧
    (Sutr.slugify name).data.getLast? ≠ some '-' ∧
    (∀ other : String, other = name → Sutr.slugify other = Sutr.slugify name) ∧
    (∀ cat : Sutr.Category, ∀ modified : Bool,
      (Sutr.categoryPreSave cat modified).slug =
        if modified then Sutr.slugify cat.name else cat.slug) := by
  refine ⟨?_, ?_, ?_, ?_, ?_, ?_⟩
  · intro c hc
    exact Sutr.isSlugChar_of_mem_slugChars hc
  · exact Sutr.noDoubleHyphen_slugChars name.data
  · exact Sutr.head?_slugChars_ne name.data
  · exact Sutr.getLast?_slugChars_ne name.data
  · intro other hother
    rw [hother]
  · intro cat modified
    cases modified <;> simp [Sutr.categoryPreSave]

/-- Witness for `C8_slug_wellformed` at the concrete name
"  Summer Dresses 2024!  ", whose slug evaluates to "summer-dresses-2024";
the embedded implications are discharged at concrete inputs. -/
theorem C8_slug_wellformed_witness :
    Sutr.slugify "  Summer Dresses 2024!  " = "summer-dresses-2024" ∧
    (Sutr.slugify "  Summer Dresses 2024!  ").data.head? ≠ some '-' ∧
    (Sutr.slugify "  Summer Dresses 2024!  ").data.getLast? ≠ some '-' := by
  have h := C8_slug_wellformed "  Summer Dresses 2024!  "
  exact ⟨by decide, h.2.2.1, h.2.2.2.1⟩

/-- **C1, claim as stated (refuted).**  The claim asserts `effectivePrice`
equals the discounted price whenever one is present and `≤ original`,
"including discounted = 0".  At `original = 100, discounted = 0` the code's
`discounted || original` is falsy on `0`, so `effectivePrice = 100 ≠ 0`, and
`discountPercentage = 0`, not `round(100·100/100) = 100`. -/
theorem C1_counterexample :
    let p : Sutr.Price := { original := 100, discounted := some 0 }
    (0 : ℚ) ≤ 0 ∧ (0 : ℚ) ≤ 100 ∧
      Sutr.effectivePrice p ≠ 0 ∧ Sutr.discountPercentage p ≠
        round (((100 : ℚ) - 0) / 100 * 100) := by
  refine ⟨le_refl 0, by norm_num, ?_, ?_⟩
  · show (if Sutr.numTruthy (some 0) then _ else (100 : ℚ)) ≠ 0
    simp [Sutr.numTruthy]
  · show (if Sutr.numTruthy (some (0 : ℚ)) ∧ _ then _ else (0 : ℤ)) ≠ _
    simp [Sutr.numTruthy]

/-- **C1, amended (proved).**  `effectivePrice` equals `discounted` exactly
when a discounted price is present and *nonzero* (JS-truthy), else equals
`original`; `discountPercentage` is `round((original-discounted)/original·100)`
when the discounted price is present, nonzero, and `original > 0`, else `0`. -/
theorem C1_amended (p : Sutr.Price) :
    (∀ d, p.discounted = some d → d ≠ 0 → Sutr.effectivePrice p = d) ∧
    (p.discounted = none ∨ p.discounted = some 0 → Sutr.effectivePrice p = p.original) ∧
    (∀ d, p.discounted = some d → d ≠ 0 → 0 < p.original →
      Sutr.discountPercentage p = round ((p.original - d) / p.original * 100)) ∧
    (p.discounted = none ∨ p.discounted = some 0 → Sutr.discountPercentage p = 0) := by
  refine ⟨?_, ?_, ?_, ?_⟩
  · intro d hd hdz
    simp [Sutr.effectivePrice, Sutr.numTruthy, hd, hdz]
  · rintro (h | h) <;> simp [Sutr.effectivePrice, Sutr.numTruthy, h]
  · intro d hd hdz hpos
    simp [Sutr.discountPercentage, Sutr.numTruthy, hd, hdz, hpos]
  · rintro (h | h) <;> simp [Sutr.discountPercentage, Sutr.numTruthy, h]

/-- Witness for `C1_amended` at `original = 200, discounted = some 150`:
effective price is `150` and the discount percentage is `round(25%) = 25`. -/
theorem C1_amended_witness :
    Sutr.effectivePrice { original := 200, discounted := some 150 } = 150 ∧
    Sutr.discountPercentage { original := 200, discounted := some 150 } = 25 := by
  have h := C1_amended { original := 200, discounted := some 150 }
  refine ⟨h.1 150 rfl (by norm_num), ?_⟩
  have h2 := h.2.2.1 150 rfl (by norm_num) (by norm_num)
  rw [h2]
  norm_num [round_eq]


/-- **C10 (confirmed).**  `adminOnly` is total on the optional request
identity: whenever `req.user` is absent or carries any role other than
`admin`, it returns the 403 Forbidden response — it never grants access
and (being a total function of the optional user, the role access guarded
by the truthiness check) never throws. -/
theorem C10_adminOnly_total (user : Option Sutr.ReqUser)
    (h : user = none ∨ ∀ u, user = some u → u.role ≠ "admin") :
    Sutr.adminOnly user = .forbidden403 "Access denied: admin only" ∧
    Sutr.adminOnly user ≠ .granted := by
  cases user with
  | none => exact ⟨rfl, by simp [Sutr.adminOnly]⟩
  | some u =>
    rcases h with h | h
    · exact absurd h (by simp)
    · have hu := h u rfl
      exact ⟨by simp [Sutr.adminOnly, hu], by simp [Sutr.adminOnly, hu]⟩

/-- Witness for `C10_adminOnly_total`: no identity attached, and a
non-admin identity. -/
theorem C10_adminOnly_total_witness :
    Sutr.adminOnly none = .forbidden403 "Access denied: admin only" ∧
    Sutr.adminOnly (some ⟨"u1", "user"⟩) ≠ .granted := by
  refine ⟨(C10_adminOnly_total none (Or.inl rfl)).1,
    (C10_adminOnly_total (some ⟨"u1", "user"⟩) (Or.inr ?_)).2⟩
  intro u hu
  injection hu with hu
  rw [← hu]
  decide

/-- **C9 (confirmed).**  A login attempt with an existing email but a
failing password comparison and a login attempt with an email that matches
no record both produce the same response: status 401 with body
`{success: false, message: "Invalid credentials"}` — byte-for-byte equal,
hence indistinguishable to the caller. -/
theorem C9_login_indistinguishable (db : List Sutr.UserRec)
    (checkPw : String → String → Bool) (e1 p1 e2 p2 : String)
    (u : Sutr.UserRec)
    (he1 : e1 ≠ "") (hp1 : p1 ≠ "") (he2 : e2 ≠ "") (hp2 : p2 ≠ "")
    (hfind1 : db.find? (fun v => v.email == e1) = some u)
    (hbad : checkPw p1 u.passwordHash = false)
    (hfind2 : db.find? (fun v => v.email == e2) = none) :
    Sutr.login db checkPw e1 p1 = .failure ⟨401, false, "Invalid credentials"⟩ ∧
    Sutr.login db checkPw e2 p2 = .failure ⟨401, false, "Invalid credentials"⟩ ∧
    Sutr.login db checkPw e1 p1 = Sutr.login db checkPw e2 p2 := by
  have h1 : Sutr.login db checkPw e1 p1 =
      .failure ⟨401, false, "Invalid credentials"⟩ := by
    simp [Sutr.login, he1, hp1, hfind1, hbad]
  have h2 : Sutr.login db checkPw e2 p2 =
      .failure ⟨401, false, "Invalid credentials"⟩ := by
    simp [Sutr.login, he2, hp2, hfind2]
  exact ⟨h1, h2, by rw [h1, h2]⟩

/-- Witness for `C9_login_indistinguishable`: one stored user; a wrong
password for that user's email versus a lookup of an unknown email. -/
theorem C9_login_indistinguishable_witness :
    Sutr.login [⟨"1", "alice", "a@b.c", "s3cret", "user"⟩]
        (fun p h => p == h) "a@b.c" "wrong" =
      .failure ⟨401, false, "Invalid credentials"⟩ ∧
    Sutr.login [⟨"1", "alice", "a@b.c", "s3cret", "user"⟩]
        (fun p h => p == h) "nobody@x" "pw" =
      .failure ⟨401, false, "Invalid credentials"⟩ := by
  have h := C9_login_indistinguishable
    [⟨"1", "alice", "a@b.c", "s3cret", "user"⟩]
    (fun p h => p == h) "a@b.c" "wrong" "nobody@x" "pw"
    ⟨"1", "alice", "a@b.c", "s3cret", "user"⟩
    (by decide) (by decide) (by decide) (by decide)
    (by decide) (by decide) (by decide)
  exact ⟨h.1, h.2.1⟩

/-- **C3 (code bug).**  The stored view count does rise by exactly 1 per
successful fetch (two sequential fetches of the same document return
counts 7 and then 8), but the increment is *not* non-blocking: it is
awaited inside the try block before the response, so a failing increment
turns the whole read into a 500 — against both the claim and the route's
own "fire-and-forget" comment. -/
theorem C3_view_increment :
    (Sutr.getDressById
        [⟨"d1", "Red Dress", "d", "m", [], [⟨"u", "p", ""⟩], true, 7⟩]
        "d1" false).1 =
      .ok ⟨"d1", "Red Dress", "d", "m", [], [⟨"u", "p", ""⟩], true, 7⟩ ∧
    (Sutr.getDressById
        (Sutr.getDressById
          [⟨"d1", "Red Dress", "d", "m", [], [⟨"u", "p", ""⟩], true, 7⟩]
          "d1" false).2
        "d1" false).1 =
      .ok ⟨"d1", "Red Dress", "d", "m", [], [⟨"u", "p", ""⟩], true, 8⟩ ∧
    (Sutr.getDressById
        [⟨"d1", "Red Dress", "d", "m", [], [⟨"u", "p", ""⟩], true, 7⟩]
        "d1" true).1 =
      .error500 "Error fetching dress" := by
  decide

/-- **C4 (confirmed).**  When the requested removals and additions would
leave a dress's image set empty, the update returns the 400
ValidationError ("Dress must have at least one image") and the store is
returned unchanged: the early return precedes any save. -/
theorem C4_empty_image_update (db : List Sutr.DressDoc) (id : String)
    (d : Sutr.DressDoc) (removeImages : List String)
    (newImages : List Sutr.DressImage)
    (hfind : db.find? (fun e => e.id == id) = some d)
    (hempty : Sutr.resultingImages d.images removeImages newImages = []) :
    Sutr.updateDressImagesRoute db id removeImages newImages (.ok ()) =
      (.badRequest400 "Dress must have at least one image", db) := by
  rw [Sutr.updateDressImagesRoute, hfind]
  have hclean : (if removeImages.length > 0 then
      (Except.ok () : Except String Unit) else .ok ()) = .ok () := by
    split <;> rfl
  rw [hclean]
  simp [hempty]

/-- Witness for `C4_empty_image_update`: a dress with one image, a request
removing that image's `public_id` and adding nothing. -/
theorem C4_empty_image_update_witness :
    Sutr.updateDressImagesRoute [Sutr.demoDress 0] "0" ["p"] [] (.ok ()) =
      (.badRequest400 "Dress must have at least one image",
        [Sutr.demoDress 0]) :=
  C4_empty_image_update [Sutr.demoDress 0] "0" (Sutr.demoDress 0) ["p"] []
    (by decide) (by decide)

/-- **C5, claim as stated (refuted).**  The claim requires the effective
page to be ≥ 1 for *every* query-string input, including non-numeric
ones; but `parseInt("abc")` is `NaN` and `Math.max(1, NaN)` is `NaN`, so
for `page=abc` there is no effective page number ≥ 1 at all. -/
theorem C5_counterexample :
    Sutr.effectivePage (some "abc") = none ∧
    ¬ ∃ n : Int, Sutr.effectivePage (some "abc") = some n ∧ 1 ≤ n := by
  refine ⟨by decide, ?_⟩
  rintro ⟨n, hn, -⟩
  rw [show Sutr.effectivePage (some "abc") = none by decide] at hn
  exact Option.noConfusion hn

/-- **C5, amended (proved).**  For every numeric (non-`NaN`) page and
pageSize input — absent ones default to 1 and 12 — the effective page is
≥ 1, the effective pageSize lies in [1,50], and the response carries the
`pageSize`-long slice starting at `(page-1)·pageSize`, the total count,
and `pages = ceil(total/pageSize)`; non-numeric input propagates `NaN`
instead of being clamped. -/
theorem C5_pagination (matching : List Sutr.DressDoc)
    (pageRaw limitRaw : Option String) (p l : Int)
    (hp : Sutr.effectivePage pageRaw = some p)
    (hl : Sutr.effectiveLimit limitRaw = some l) :
    1 ≤ p ∧ 1 ≤ l ∧ l ≤ 50 ∧
    Sutr.listDressesPage matching pageRaw limitRaw =
      some ((matching.drop ((p - 1) * l).toNat).take l.toNat,
        matching.length, p, ⌈(matching.length : ℚ) / (l : ℚ)⌉) := by
  obtain ⟨hl1, hl50⟩ := Sutr.effectiveLimit_bounds hl
  refine ⟨Sutr.effectivePage_ge_one hp, hl1, hl50, ?_⟩
  rw [Sutr.listDressesPage, hp, hl]

/-- Witness for `C5_pagination`: page 1, pageSize 12 over 30 matching
items returns exactly 12 items with total 30 and 3 pages. -/
theorem C5_pagination_witness :
    ∃ items : List Sutr.DressDoc, ∃ total : Nat, ∃ pages : Int,
      Sutr.listDressesPage Sutr.demoCatalog (some "1") (some "12") =
        some (items, total, 1, pages) ∧
      items.length = 12 ∧ total = 30 ∧ pages = 3 := by
  have h := C5_pagination Sutr.demoCatalog (some "1") (some "12") 1 12
    (by decide) (by decide)
  refine ⟨_, _, _, h.2.2.2, by decide, by decide, ?_⟩
  have hlen : Sutr.demoCatalog.length = 30 := by decide
  rw [hlen]
  norm_num [Int.ceil_eq_iff]

/-- **C7 (code bug).**  Resolving the category-scoped listing for an
identifier that mongoose cannot cast to an ObjectId (here the 14-character
slug "summer-dresses", with no matching category) raises a CastError that
the route maps to a 500 — not the NotFound the claim requires — whereas
the sibling GET /category/:identifier route, which branches on the 24-hex
format before querying, does return NotFound for the same input. -/
theorem C7_category_resolution :
    Sutr.resolveCategoryForListing [] "summer-dresses" =
      .castError500 "Error fetching dresses by category" ∧
    Sutr.resolveCategoryForListing [] "summer-dresses" ≠ .notFound404 ∧
    Sutr.getCategoryByIdentifier [] "summer-dresses" = .notFound404 := by
  decide

/-- **C2 (code bug).**  When a category or dress create fails after assets
were uploaded, the compensating remote deletion is attempted — but
`deleteFromCloudinary` / `deleteMultipleFromCloudinary` rethrow after
logging, and the route catch blocks await them unguarded, so a failing
compensation escapes the handler: the caller gets no response at all,
never the original failure reason.  When the compensation succeeds, the
original error does surface (400 duplicate / 500 with its message). -/
theorem C2_compensation :
    Sutr.createCategoryOutcome true .dupKey (.error "cloudinary down") =
      .noResponse "cloudinary down" ∧
    Sutr.createCategoryOutcome true .dupKey (.ok ()) =
      .badRequest400 "Category name already exists" ∧
    Sutr.createDressOutcome [⟨"u", "p1", ""⟩] (.error "db down")
        [.error "cloudinary down"] = .noResponse "cloudinary down" ∧
    Sutr.createDressOutcome [⟨"u", "p1", ""⟩] (.error "db down")
        [.ok ()] = .error500 "db down" := by
  decide

/-- **C6, claim as stated (refuted).**  The search filter builds
`RegExp(q, 'i')`, so metacharacters in the query are interpreted: the
query "a.c" matches an active dress named "abc" although "a.c" is not a
substring of its name, description, or material, and it has no tags. -/
theorem C6_counterexample :
    Sutr.searchRoute [⟨"d1", "abc", "x", "y", [], [], true, 0⟩]
        (some "a.c") =
      .ok [⟨"d1", "abc", "x", "y", [], [], true, 0⟩] ∧
    Sutr.isSubstrI "a.c".data "abc".data = false ∧
    Sutr.isSubstrI "a.c".data "x".data = false ∧
    Sutr.isSubstrI "a.c".data "y".data = false :=
  ⟨rfl, by decide, by decide, by decide⟩

/-- **C6, amended (proved).**  For every query free of regex
metacharacters, an active dress matches the search filter exactly when the
query is a case-insensitive substring of its name, description, material,
or one of its tags; queries containing metacharacters are interpreted as
regular-expression patterns instead.  A search with an absent or empty
query fails with the 400 ValidationError. -/
theorem C6_search_substring (db : List Sutr.DressDoc) (q : String)
    (d : Sutr.DressDoc) (hq : q ≠ "")
    (hmeta : q.data.all (fun c => !Sutr.isRegexMeta c) = true) :
    (d.isActive = true →
      (Sutr.searchMatches q d = true ↔
        (Sutr.isSubstrI q.data d.name.data ||
         Sutr.isSubstrI q.data d.description.data ||
         Sutr.isSubstrI q.data d.material.data ||
         d.tags.any (fun t => Sutr.isSubstrI q.data t.data)) = true)) ∧
    Sutr.searchRoute db (some q) =
      .ok (db.filter (fun e => e.isActive && Sutr.searchMatches q e)) ∧
    Sutr.searchRoute db (some "") = .error "Search query (q) is required" ∧
    Sutr.searchRoute db none = .error "Search query (q) is required" := by
  have hdot := Sutr.no_dot_of_no_meta hmeta
  refine ⟨?_, ?_, ?_, ?_⟩
  · intro _
    rw [Sutr.searchMatches]
    simp only [Sutr.regexTestI_eq_isSubstrI q.data hdot]
  · rw [Sutr.searchRoute, if_neg (by simp [hq])]
    rfl
  · rw [Sutr.searchRoute]
    rfl
  · rfl

/-- Witness for `C6_search_substring`: the literal query "red" against a
dress named "Red Dress" — a case-insensitive substring hit. -/
theorem C6_search_substring_witness :
    Sutr.searchMatches "red"
        ⟨"d1", "Red Dress", "solid", "cotton", ["summer"], [], true, 0⟩ = true ∧
    (Sutr.isSubstrI "red".data "Red Dress".data ||
      Sutr.isSubstrI "red".data "solid".data ||
      Sutr.isSubstrI "red".data "cotton".data ||
      ["summer"].any (fun t => Sutr.isSubstrI "red".data t.data)) = true := by
  have h := C6_search_substring [] "red"
    ⟨"d1", "Red Dress", "solid", "cotton", ["summer"], [], true, 0⟩
    (by decide) (by decide)
  have hiff := h.1 (by decide)
  exact ⟨hiff.mpr (by decide), by decide⟩
